import Mathlib

set_option autoImplicit false

/-!
Shallow embedding of `src/random-walker.py` (justzen0/random-walker).

The program suggests a closed-loop walking route: it samples two random
geographic points in a disk around the start (`get_random_point_in_circle`,
lines 85-95), resolves them to graph nodes via the external `ox.nearest_nodes`
lookup, queries `nx.shortest_path` three times per attempt, concatenates the
legs, recomputes the total length from per-edge `length` attributes, and
accepts the loop when the length lies in a tolerance band
(`generate_walk_in_circle`, lines 97-129).  `save_path_for_gmaps`
(lines 131-157) downsamples a long path to at most `max_waypoints_for_url`
waypoints for a Google Maps URL (lines 133-140).

Modelling conventions:
* Python float arithmetic on distances is modelled by exact `ℚ` arithmetic;
  the sampler's trigonometry is modelled over `ℝ`.
* `NodeId` is an opaque type `Node` with decidable equality.
* The graph's edge data `graph.edges[u, v, 0]['length']` is a function
  `Node → Node → Option ℚ`; `none` models the `KeyError` raised when the
  edge (or its `length` attribute) is missing.
* `nx.shortest_path` is the external path oracle `Node → Node → Option (List Node)`;
  `none` models the `networkx.NetworkXNoPath` exception.
* Randomness: `random.uniform(a, b)` returns `a + (b - a) * u` for a fresh
  unit draw `u`; the sampler takes its two unit draws `u1 u2` as arguments.
  Inside the loop builder, the composition "sample two points, resolve each
  with `ox.nearest_nodes`" is external to the core and is modelled by an
  environment `env : Nat → Node × Node` giving, for each attempt index,
  the pair of resolved nodes `(node_b, node_c)`; every attempt entered
  consumes one fresh pair (two sampler calls, four uniform draws).
* The `try ... except (nx.NetworkXNoPath, KeyError): continue` block is made
  explicit: `tryBlock` returns `Except PyExc _` where `PyExc` has exactly the
  two constructors matched by the `except` clause, and `attemptBody` is the
  catching wrapper that turns either exception into "go to the next attempt".
-/

namespace RandomWalker

/-! ### Waypoint reduction (`save_path_for_gmaps`, lines 133-140) -/

/-- Python slicing `path[::step]` for a positive step, written with an
explicit countdown counter: the counter says how many elements to skip
before the next one is taken. -/
def everyNthAux {α : Type} : List α → Nat → Nat → List α
  | [], _, _ => []
  | a :: rest, step, 0 => a :: everyNthAux rest step (step - 1)
  | _ :: rest, step, c + 1 => everyNthAux rest step c

/-- Python `path[::step]` (elements at indices `0, step, 2*step, ...`). -/
def everyNth {α : Type} (l : List α) (step : Nat) : List α :=
  everyNthAux l step 0

/-- Lines 133-140 of `save_path_for_gmaps`, with the constant
`max_waypoints_for_url = 23` generalised to a parameter `max_count`:

    if len(path_nodes) > max_waypoints_for_url:
        step = len(path_nodes) // (max_waypoints_for_url - 1)
        url_nodes = path_nodes[::step]
        if url_nodes[-1] != path_nodes[-1]:
             url_nodes.append(path_nodes[-1])
    else:
        url_nodes = path_nodes
-/
def reduce_waypoints {α : Type} [DecidableEq α] (max_count : Nat) (path_nodes : List α) :
    List α :=
  if max_count < path_nodes.length then
    let step := path_nodes.length / (max_count - 1)
    let url_nodes := everyNth path_nodes step
    if url_nodes.getLast? = path_nodes.getLast? then url_nodes
    else url_nodes ++ path_nodes.getLast?.toList
  else path_nodes

/-- The constant `max_waypoints_for_url` of line 133. -/
def max_waypoints_for_url : Nat := 23

/-! ### Loop builder (`generate_walk_in_circle`, lines 97-129) -/

/-- The two exception classes named by the `except` clause on line 125:
`nx.NetworkXNoPath` and `KeyError`. -/
inductive PyExc : Type
  | noPath : PyExc
  | keyError : PyExc
deriving DecidableEq

/-- Line 120:
`sum(graph.edges[u, v, 0]['length'] for u, v in zip(full_path[:-1], full_path[1:]))`.
Returns `none` when some consecutive pair has no edge `(u, v, 0)` with a
`length` attribute (Python raises `KeyError` there). -/
def pathLength {Node : Type} (edges : Node → Node → Option ℚ) : List Node → Option ℚ
  | [] => some 0
  | [_] => some 0
  | u :: v :: rest =>
    match edges u v with
    | none => none
    | some l =>
      match pathLength edges (v :: rest) with
      | none => none
      | some s => some (l + s)

/-- The body of the `try` block, lines 114-124, with exceptions made explicit:
three shortest-path queries, leg concatenation with endpoint deduplication
(line 118), length recomputation (line 120) and the acceptance test
(lines 122-124).  `.ok (some p)` models `return full_path`; `.ok none` models
falling through to the next loop iteration; `.error e` models an uncaught
exception leaving the `try` block. -/
def tryBlock {Node : Type} (edges : Node → Node → Option ℚ)
    (sp : Node → Node → Option (List Node)) (start_node : Node)
    (min_dist_m max_dist_m : ℚ) (node_b node_c : Node) :
    Except PyExc (Option (List Node)) :=
  match sp start_node node_b with
  | none => .error .noPath
  | some path_ab =>
    match sp node_b node_c with
    | none => .error .noPath
    | some path_bc =>
      match sp node_c start_node with
      | none => .error .noPath
      | some path_ca =>
        let full_path := path_ab.dropLast ++ path_bc.dropLast ++ path_ca
        match pathLength edges full_path with
        | none => .error .keyError
        | some path_length_m =>
          if min_dist_m ≤ path_length_m ∧ path_length_m ≤ max_dist_m then
            .ok (some full_path)
          else .ok none

/-- The shortest-path queries issued inside the `try` block, in order:
line 115 always runs; line 116 only if line 115 did not raise; line 117 only
if lines 115-116 did not raise. -/
def tryTrace {Node : Type} (sp : Node → Node → Option (List Node))
    (start_node node_b node_c : Node) : List (Node × Node) :=
  (start_node, node_b) ::
    match sp start_node node_b with
    | none => []
    | some _ =>
      (node_b, node_c) ::
        match sp node_b node_c with
        | none => []
        | some _ => [(node_c, start_node)]

/-- One iteration of the `for` loop, lines 112-126, after the two sampled
points have been resolved to `node_b, node_c`: the degeneracy check of
line 112 (`continue`), then the `try` block with
`except (nx.NetworkXNoPath, KeyError): continue`.  `some p` models
`return full_path`; `none` models reaching the next iteration. -/
def attemptBody {Node : Type} [DecidableEq Node] (edges : Node → Node → Option ℚ)
    (sp : Node → Node → Option (List Node)) (start_node : Node)
    (min_dist_m max_dist_m : ℚ) (node_b node_c : Node) : Option (List Node) :=
  if node_b = start_node ∨ node_c = start_node ∨ node_b = node_c then none
  else
    match tryBlock edges sp start_node min_dist_m max_dist_m node_b node_c with
    | .ok r => r
    | .error _ => none

/-- The shortest-path oracle queries issued during one loop iteration:
none at all when the degeneracy check of line 112 fires (the `continue`
precedes the `try` block). -/
def attemptTrace {Node : Type} [DecidableEq Node]
    (sp : Node → Node → Option (List Node)) (start_node node_b node_c : Node) :
    List (Node × Node) :=
  if node_b = start_node ∨ node_c = start_node ∨ node_b = node_c then []
  else tryTrace sp start_node node_b node_c

/-- The `for i in range(max_attempts)` loop of lines 104-126, starting at
attempt index `i` with `fuel` iterations remaining.  Returns the returned
path (or `none` for falling off the loop, line 129) together with the number
of loop iterations actually entered. -/
def genAux {Node : Type} [DecidableEq Node] (edges : Node → Node → Option ℚ)
    (sp : Node → Node → Option (List Node)) (start_node : Node)
    (min_dist_m max_dist_m : ℚ) (env : Nat → Node × Node) :
    Nat → Nat → Option (List Node) × Nat
  | _, 0 => (none, 0)
  | i, fuel + 1 =>
    match attemptBody edges sp start_node min_dist_m max_dist_m (env i).1 (env i).2 with
    | some p => (some p, 1)
    | none =>
      let rest := genAux edges sp start_node min_dist_m max_dist_m env (i + 1) fuel
      (rest.1, rest.2 + 1)

/-- `generate_walk_in_circle(graph, start_node, total_distance_km, tolerance,
max_attempts)`, lines 97-129.  The derived band of lines 101-102 is computed
exactly as in the source; the sampling radius of line 99 and the start
coordinates of line 100 only feed the sampler whose nearest-node resolution
is modelled by `env` (see the module docstring). -/
def generate_walk_in_circle {Node : Type} [DecidableEq Node]
    (edges : Node → Node → Option ℚ) (sp : Node → Node → Option (List Node))
    (start_node : Node) (total_distance_km tolerance : ℚ)
    (env : Nat → Node × Node) (max_attempts : Nat) : Option (List Node) :=
  let min_dist_m := total_distance_km * (1 - tolerance) * 1000
  let max_dist_m := total_distance_km * (1 + tolerance) * 1000
  (genAux edges sp start_node min_dist_m max_dist_m env 0 max_attempts).1

/-- Number of loop iterations of lines 104-126 actually entered by a call to
`generate_walk_in_circle`.  Each entered iteration samples two random points
(lines 106-107, four uniform draws) before anything else happens. -/
def attemptsPerformed {Node : Type} [DecidableEq Node]
    (edges : Node → Node → Option ℚ) (sp : Node → Node → Option (List Node))
    (start_node : Node) (total_distance_km tolerance : ℚ)
    (env : Nat → Node × Node) (max_attempts : Nat) : Nat :=
  let min_dist_m := total_distance_km * (1 - tolerance) * 1000
  let max_dist_m := total_distance_km * (1 + tolerance) * 1000
  (genAux edges sp start_node min_dist_m max_dist_m env 0 max_attempts).2

/-! ### Geo sampler (`get_random_point_in_circle`, lines 85-95) -/

/-- `math.radians`. -/
noncomputable def radians (x : ℝ) : ℝ := x * (Real.pi / 180)

/-- `math.degrees`. -/
noncomputable def degrees (x : ℝ) : ℝ := x * (180 / Real.pi)

/-- `math.atan2(y, x)`, as the argument of the complex number `x + y*I`
(range `(-π, π]`). -/
noncomputable def atan2 (y x : ℝ) : ℝ := Complex.arg (x + y * Complex.I)

/-- `get_random_point_in_circle(lat, lon, radius_km)`, lines 85-95, with the
two unit uniform draws passed explicitly: line 88 is
`r = radius_km * math.sqrt(random.uniform(0, 1))` and line 89 is
`theta = random.uniform(0, 2 * math.pi) = 2π * u2`. -/
noncomputable def get_random_point_in_circle (lat lon radius_km u1 u2 : ℝ) : ℝ × ℝ :=
  let R : ℝ := 6371
  let r := radius_km * Real.sqrt u1
  let theta := 2 * Real.pi * u2
  let lat_rad := radians lat
  let lon_rad := radians lon
  let new_lat_rad := Real.arcsin (Real.sin lat_rad * Real.cos (r / R) +
    Real.cos lat_rad * Real.sin (r / R) * Real.cos theta)
  let new_lon_rad := lon_rad + atan2 (Real.sin theta * Real.sin (r / R) * Real.cos lat_rad)
    (Real.cos (r / R) - Real.sin lat_rad * Real.sin new_lat_rad)
  (degrees new_lat_rad, degrees new_lon_rad)

/-- Modelled from the spec, §4.1 `sample_point_in_disk`: "draw a uniform
random distance `r = radius_km * sqrt(U1)` ...  Draw a uniform random bearing
`θ = 2π * U2` ... compute new latitude via
`asin(sin(lat)·cos(r/R) + cos(lat)·sin(r/R)·cos(θ))` and new longitude via
`lon + atan2(sin(θ)·sin(r/R)·cos(lat), cos(r/R) − sin(lat)·sin(new_lat))`,
all angles in radians, then convert back to degrees", on a sphere of radius
6371 km.  Reference definition for the refinement claim about the sampler. -/
noncomputable def sample_point_in_disk_spec (lat lon radius_km u1 u2 : ℝ) : ℝ × ℝ :=
  let R : ℝ := 6371
  let r := radius_km * Real.sqrt u1
  let theta := 2 * Real.pi * u2
  let lat_rad := radians lat
  let lon_rad := radians lon
  let new_lat_rad := Real.arcsin (Real.sin lat_rad * Real.cos (r / R) +
    Real.cos lat_rad * Real.sin (r / R) * Real.cos theta)
  let new_lon_rad := lon_rad + atan2 (Real.sin theta * Real.sin (r / R) * Real.cos lat_rad)
    (Real.cos (r / R) - Real.sin lat_rad * Real.sin new_lat_rad)
  (degrees new_lat_rad, degrees new_lon_rad)

/-! ### Concrete instances used by witnesses

A three-node cycle graph `0 → 1 → 2 → 0` with 500 m edges, plus two damaged
variants (an oracle that only connects `0 → 1`, and an edge function missing
the `length` entry for `(1, 2)`). -/

def exEdges : Nat → Nat → Option ℚ := fun u v =>
  if u = 0 ∧ v = 1 then some 500
  else if u = 1 ∧ v = 2 then some 500
  else if u = 2 ∧ v = 0 then some 500
  else none

def exSp : Nat → Nat → Option (List Nat) := fun s t =>
  if s = 0 ∧ t = 1 then some [0, 1]
  else if s = 1 ∧ t = 2 then some [1, 2]
  else if s = 2 ∧ t = 0 then some [2, 0]
  else none

/-- An oracle that can only connect `0 → 1` (every other query raises
`NetworkXNoPath`). -/
def exSpShort : Nat → Nat → Option (List Nat) := fun s t =>
  if s = 0 ∧ t = 1 then some [0, 1] else none

/-- Edge data with the `length` entry for `(1, 2)` missing (lookup there
raises `KeyError`). -/
def exEdgesGap : Nat → Nat → Option ℚ := fun u v =>
  if u = 0 ∧ v = 1 then some 500
  else if u = 2 ∧ v = 0 then some 500
  else none

/-- Environment: every attempt resolves the sampled points to nodes 1, 2. -/
def exEnvBC : Nat → Nat × Nat := fun _ => (1, 2)

/-- Environment: attempt 0 resolves both samples to the start node 0
(degenerate), later attempts to nodes 1, 2. -/
def exEnvSecond : Nat → Nat × Nat := fun i => if i = 0 then (0, 0) else (1, 2)

/-- Environment: every attempt resolves point B to the start node 0. -/
def exEnvDegen : Nat → Nat × Nat := fun _ => (0, 2)

/-! ### Helper lemmas about the loop builder -/

section LoopLemmas

variable {Node : Type} [DecidableEq Node] (edges : Node → Node → Option ℚ)
  (sp : Node → Node → Option (List Node)) (st : Node) (m M : ℚ)
  (env : Nat → Node × Node)

theorem genAux_hit {i fuel : Nat} {p : List Node}
    (h : attemptBody edges sp st m M (env i).1 (env i).2 = some p) :
    genAux edges sp st m M env i (fuel + 1) = (some p, 1) := by
  simp [genAux, h]

theorem genAux_skip {i fuel : Nat}
    (h : attemptBody edges sp st m M (env i).1 (env i).2 = none) :
    genAux edges sp st m M env i (fuel + 1) =
      ((genAux edges sp st m M env (i + 1) fuel).1,
        (genAux edges sp st m M env (i + 1) fuel).2 + 1) := by
  simp [genAux, h]

theorem genAux_count_le : ∀ (fuel i : Nat),
    (genAux edges sp st m M env i fuel).2 ≤ fuel := by
  intro fuel
  induction fuel with
  | zero => intro i; simp [genAux]
  | succ f ih =>
    intro i
    cases h : attemptBody edges sp st m M (env i).1 (env i).2 with
    | some p => rw [genAux_hit edges sp st m M env h]; omega
    | none =>
      rw [genAux_skip edges sp st m M env h]
      have := ih (i + 1)
      omega

theorem genAux_none_of_all_none : ∀ (fuel i : Nat),
    (∀ j, j < fuel → attemptBody edges sp st m M (env (i + j)).1 (env (i + j)).2 = none) →
    (genAux edges sp st m M env i fuel).1 = none := by
  intro fuel
  induction fuel with
  | zero => intro i _; simp [genAux]
  | succ f ih =>
    intro i h
    have h0 : attemptBody edges sp st m M (env i).1 (env i).2 = none := by
      have := h 0 (Nat.succ_pos f)
      simpa using this
    rw [genAux_skip edges sp st m M env h0]
    exact ih (i + 1) fun j hj => by
      have := h (j + 1) (Nat.succ_lt_succ hj)
      simpa [Nat.add_assoc, Nat.add_comm 1 j] using this

theorem genAux_first_fit : ∀ (fuel i j : Nat) (p : List Node), j < fuel →
    (∀ j', j' < j → attemptBody edges sp st m M (env (i + j')).1 (env (i + j')).2 = none) →
    attemptBody edges sp st m M (env (i + j)).1 (env (i + j)).2 = some p →
    genAux edges sp st m M env i fuel = (some p, j + 1) := by
  intro fuel
  induction fuel with
  | zero => intro i j p hj; omega
  | succ f ih =>
    intro i j p hj hall hhit
    cases j with
    | zero =>
      have h0 : attemptBody edges sp st m M (env i).1 (env i).2 = some p := by
        simpa using hhit
      rw [genAux_hit edges sp st m M env h0]
    | succ j' =>
      have h0 : attemptBody edges sp st m M (env i).1 (env i).2 = none := by
        have := hall 0 (Nat.succ_pos j')
        simpa using this
      rw [genAux_skip edges sp st m M env h0]
      have hrec : genAux edges sp st m M env (i + 1) f = (some p, j' + 1) := by
        refine ih (i + 1) j' p (by omega) (fun j'' hj'' => ?_) ?_
        · have := hall (j'' + 1) (Nat.succ_lt_succ hj'')
          simpa [Nat.add_assoc, Nat.add_comm 1 j''] using this
        · have := hhit
          simpa [Nat.add_assoc, Nat.add_comm 1 j'] using this
      rw [hrec]

theorem genAux_some_exists : ∀ (fuel i : Nat) (p : List Node),
    (genAux edges sp st m M env i fuel).1 = some p →
    ∃ j, j < fuel ∧ attemptBody edges sp st m M (env (i + j)).1 (env (i + j)).2 = some p := by
  intro fuel
  induction fuel with
  | zero => intro i p h; simp [genAux] at h
  | succ f ih =>
    intro i p h
    cases h0 : attemptBody edges sp st m M (env i).1 (env i).2 with
    | some q =>
      rw [genAux_hit edges sp st m M env h0] at h
      refine ⟨0, Nat.succ_pos f, ?_⟩
      simp only [Nat.add_zero]
      rw [h0]
      simpa using h
    | none =>
      rw [genAux_skip edges sp st m M env h0] at h
      obtain ⟨j, hj, hhit⟩ := ih (i + 1) p h
      refine ⟨j + 1, Nat.succ_lt_succ hj, ?_⟩
      have : i + 1 + j = i + (j + 1) := by omega
      rwa [this] at hhit

theorem attemptBody_eq_some {b c : Node} {p : List Node}
    (h : attemptBody edges sp st m M b c = some p) :
    ¬(b = st ∨ c = st ∨ b = c) ∧
    ∃ path_ab path_bc path_ca L,
      sp st b = some path_ab ∧ sp b c = some path_bc ∧ sp c st = some path_ca ∧
      p = path_ab.dropLast ++ path_bc.dropLast ++ path_ca ∧
      pathLength edges p = some L ∧ m ≤ L ∧ L ≤ M := by
  unfold attemptBody at h
  split_ifs at h with hdeg
  refine ⟨hdeg, ?_⟩
  unfold tryBlock at h
  cases hab : sp st b with
  | none => rw [hab] at h; exact absurd h (by simp)
  | some path_ab =>
    rw [hab] at h
    cases hbc : sp b c with
    | none => rw [hbc] at h; exact absurd h (by simp)
    | some path_bc =>
      rw [hbc] at h
      cases hca : sp c st with
      | none => rw [hca] at h; exact absurd h (by simp)
      | some path_ca =>
        rw [hca] at h
        simp only at h
        cases hlen : pathLength edges (path_ab.dropLast ++ path_bc.dropLast ++ path_ca) with
        | none => rw [hlen] at h; exact absurd h (by simp)
        | some L =>
          rw [hlen] at h
          dsimp only at h
          split_ifs at h with hband
          dsimp only at h
          obtain rfl : path_ab.dropLast ++ path_bc.dropLast ++ path_ca = p := by
            injection h
          exact ⟨path_ab, path_bc, path_ca, L, rfl, rfl, rfl, rfl, hlen, hband.1, hband.2⟩

theorem attemptBody_eq_none_of_error {b c : Node} {e : PyExc}
    (h : tryBlock edges sp st m M b c = .error e) :
    attemptBody edges sp st m M b c = none := by
  unfold attemptBody
  split_ifs with hdeg
  · rfl
  · rw [h]

end LoopLemmas

/-! ### Helper lemmas about paths and lists -/

theorem pathLength_edges_exist {Node : Type} (edges : Node → Node → Option ℚ) :
    ∀ (l : List Node) (L : ℚ), pathLength edges l = some L →
      ∀ x ∈ l.zip l.tail, edges x.1 x.2 ≠ none := by
  intro l
  induction l with
  | nil => intro L _ x hx; simp at hx
  | cons u t ih =>
    intro L h x hx
    cases t with
    | nil => simp at hx
    | cons v rest =>
      simp only [List.tail_cons, List.zip_cons_cons, List.mem_cons] at hx
      unfold pathLength at h
      cases he : edges u v with
      | none => rw [he] at h; exact absurd h (by simp)
      | some l' =>
        rw [he] at h
        cases hrest : pathLength edges (v :: rest) with
        | none => rw [hrest] at h; exact absurd h (by simp)
        | some s =>
          rcases hx with hx | hx
          · subst hx; simp [he]
          · exact ih s hrest x (by simpa using hx)

theorem head_of_leg_concat {Node : Type} {path_ab rest : List Node} {st b : Node}
    (hne : st ≠ b) (hh : path_ab.head? = some st) (hl : path_ab.getLast? = some b) :
    (path_ab.dropLast ++ rest).head? = some st := by
  cases path_ab with
  | nil => simp at hh
  | cons a t =>
    simp only [List.head?_cons, Option.some.injEq] at hh
    subst hh
    cases t with
    | nil => simp only [List.getLast?_singleton, Option.some.injEq] at hl; exact absurd hl hne
    | cons y t' => simp

theorem last_of_leg_concat {Node : Type} {front path_ca : List Node} {st : Node}
    (hl : path_ca.getLast? = some st) : (front ++ path_ca).getLast? = some st := by
  cases path_ca with
  | nil => simp at hl
  | cons a t =>
    rw [List.getLast?_append_cons]
    exact hl

theorem exSp_sound : ∀ s t q, exSp s t = some q → q.head? = some s ∧ q.getLast? = some t := by
  intro s t q h
  unfold exSp at h
  split_ifs at h with h1 h2 h3
  · obtain ⟨rfl, rfl⟩ := h1
    obtain rfl : [0, 1] = q := by injection h
    exact ⟨rfl, by decide⟩
  · obtain ⟨rfl, rfl⟩ := h2
    obtain rfl : [1, 2] = q := by injection h
    exact ⟨rfl, by decide⟩
  · obtain ⟨rfl, rfl⟩ := h3
    obtain rfl : [2, 0] = q := by injection h
    exact ⟨rfl, by decide⟩

/-! ### Claim theorems: the loop builder -/

/-- Claim C1: every path returned (non-`None`) by `generate_walk_in_circle`
starts and ends at `start_node`, and its total length, recomputed as the sum
of the `length` attributes of the consecutive edges along the path, lies in
`[target_km·(1−tolerance)·1000, target_km·(1+tolerance)·1000]` meters.  The
hypothesis `hsp` is the path-oracle contract (`nx.shortest_path` returns a
path from its source to its target), which the spec notes is guaranteed by
the oracle and not re-verified by the core. -/
theorem returned_loop_starts_ends_at_start_and_length_in_band
    {Node : Type} [DecidableEq Node]
    (edges : Node → Node → Option ℚ) (sp : Node → Node → Option (List Node))
    (start_node : Node) (target_km tolerance : ℚ) (env : Nat → Node × Node)
    (max_attempts : Nat) (p : List Node)
    (hsp : ∀ s t q, sp s t = some q → q.head? = some s ∧ q.getLast? = some t)
    (h : generate_walk_in_circle edges sp start_node target_km tolerance env
      max_attempts = some p) :
    p.head? = some start_node ∧ p.getLast? = some start_node ∧
    ∃ L, pathLength edges p = some L ∧
      target_km * (1 - tolerance) * 1000 ≤ L ∧
      L ≤ target_km * (1 + tolerance) * 1000 := by
  unfold generate_walk_in_circle at h
  obtain ⟨j, hj, hhit⟩ :=
    genAux_some_exists edges sp start_node _ _ env max_attempts 0 p h
  obtain ⟨hdeg, pab, pbc, pca, L, hab, hbc, hca, hp, hlen, h1, h2⟩ :=
    attemptBody_eq_some edges sp start_node _ _ hhit
  subst hp
  have hbne : start_node ≠ (env (0 + j)).1 := fun heq => hdeg (Or.inl heq.symm)
  refine ⟨?_, ?_, L, hlen, h1, h2⟩
  · rw [List.append_assoc]
    exact head_of_leg_concat hbne (hsp _ _ _ hab).1 (hsp _ _ _ hab).2
  · exact last_of_leg_concat (hsp _ _ _ hca).2

theorem returned_loop_starts_ends_at_start_and_length_in_band_witness :
    ([0, 1, 2, 0] : List Nat).head? = some 0 ∧
    ([0, 1, 2, 0] : List Nat).getLast? = some 0 ∧
    ∃ L, pathLength exEdges [0, 1, 2, 0] = some L ∧
      (3 / 2 : ℚ) * (1 - 1 / 10) * 1000 ≤ L ∧
      L ≤ (3 / 2 : ℚ) * (1 + 1 / 10) * 1000 :=
  returned_loop_starts_ends_at_start_and_length_in_band exEdges exSp 0 (3 / 2)
    (1 / 10) exEnvBC 1 [0, 1, 2, 0] exSp_sound
    (by norm_num [generate_walk_in_circle, genAux, attemptBody, tryBlock,
      pathLength, exSp, exEdges, exEnvBC])

/-- Claim C2: `generate_walk_in_circle` performs at most `max_attempts`
attempts; after `max_attempts` unsuccessful attempts it returns the explicit
failure value `None` (no exception, no partial loop); and within the attempt
sequence it returns the first accepted loop (first-fit), having performed
exactly `i + 1` attempts when attempt `i` is the first to fit. -/
theorem attempts_bounded_failure_is_none_and_first_fit
    {Node : Type} [DecidableEq Node]
    (edges : Node → Node → Option ℚ) (sp : Node → Node → Option (List Node))
    (start_node : Node) (target_km tolerance : ℚ) (env : Nat → Node × Node)
    (max_attempts : Nat) :
    attemptsPerformed edges sp start_node target_km tolerance env max_attempts ≤
      max_attempts ∧
    ((∀ i, i < max_attempts →
        attemptBody edges sp start_node (target_km * (1 - tolerance) * 1000)
          (target_km * (1 + tolerance) * 1000) (env i).1 (env i).2 = none) →
      generate_walk_in_circle edges sp start_node target_km tolerance env
        max_attempts = none) ∧
    (∀ i p, i < max_attempts →
      (∀ j, j < i →
        attemptBody edges sp start_node (target_km * (1 - tolerance) * 1000)
          (target_km * (1 + tolerance) * 1000) (env j).1 (env j).2 = none) →
      attemptBody edges sp start_node (target_km * (1 - tolerance) * 1000)
        (target_km * (1 + tolerance) * 1000) (env i).1 (env i).2 = some p →
      generate_walk_in_circle edges sp start_node target_km tolerance env
        max_attempts = some p ∧
      attemptsPerformed edges sp start_node target_km tolerance env
        max_attempts = i + 1) := by
  refine ⟨?_, ?_, ?_⟩
  · exact genAux_count_le edges sp start_node _ _ env max_attempts 0
  · intro hall
    unfold generate_walk_in_circle
    exact genAux_none_of_all_none edges sp start_node _ _ env max_attempts 0
      fun j hj => by simpa using hall j hj
  · intro i p hi hprev hhit
    have hfit := genAux_first_fit edges sp start_node
      (target_km * (1 - tolerance) * 1000) (target_km * (1 + tolerance) * 1000)
      env max_attempts 0 i p hi
      (fun j' hj' => by simpa using hprev j' hj') (by simpa using hhit)
    exact ⟨congrArg Prod.fst hfit, congrArg Prod.snd hfit⟩

theorem attempts_bounded_failure_is_none_and_first_fit_witness :
    generate_walk_in_circle exEdges exSp 0 (3 / 2) (1 / 10) exEnvSecond 2 =
      some [0, 1, 2, 0] ∧
    attemptsPerformed exEdges exSp 0 (3 / 2) (1 / 10) exEnvSecond 2 = 2 :=
  (attempts_bounded_failure_is_none_and_first_fit exEdges exSp 0 (3 / 2)
      (1 / 10) exEnvSecond 2).2.2 1 [0, 1, 2, 0] (by norm_num)
    (by
      intro j hj
      interval_cases j
      norm_num [attemptBody, exEnvSecond])
    (by norm_num [attemptBody, tryBlock, pathLength, exSp, exEdges, exEnvSecond])

/-- Claim C3, shown false at a concrete input: called with the non-positive
target distance `-1` km and the out-of-range tolerance `3/2` (and
`max_attempts = 1 ≠ 0`), `generate_walk_in_circle` does not fail fast:
the attempt is entered (so the two random points of lines 106-107 are
sampled), all three shortest-path oracle queries are issued, and the call
ends by returning `None` from the ordinary exhaustion path of line 129 —
no invalid-input signal exists in the code. -/
theorem no_fail_fast_on_invalid_input_counterexample :
    attemptsPerformed exEdges exSp 0 (-1) (3 / 2) exEnvBC 1 = 1 ∧
    attemptTrace exSp 0 (exEnvBC 0).1 (exEnvBC 0).2 = [(0, 1), (1, 2), (2, 0)] ∧
    generate_walk_in_circle exEdges exSp 0 (-1) (3 / 2) exEnvBC 1 = none := by
  refine ⟨?_, ?_, ?_⟩
  · norm_num [attemptsPerformed, genAux, attemptBody, tryBlock, pathLength,
      exSp, exEdges, exEnvBC]
  · norm_num [attemptTrace, tryTrace, exSp, exEnvBC]
  · norm_num [generate_walk_in_circle, genAux, attemptBody, tryBlock,
      pathLength, exSp, exEdges, exEnvBC]

/-- Claim C3, amended: `generate_walk_in_circle` performs no input
validation at all.  For every target distance and tolerance — valid or not —
a call with `max_attempts = 0` returns `None` with zero attempts entered
(the `for` loop body never runs, so nothing is sampled: loop exhaustion,
not an invalid-input signal), and a call with `max_attempts ≥ 1` always
enters the first attempt (hence samples random points) regardless of the
validity of the target distance or tolerance. -/
theorem no_input_validation_amended
    {Node : Type} [DecidableEq Node]
    (edges : Node → Node → Option ℚ) (sp : Node → Node → Option (List Node))
    (start_node : Node) (target_km tolerance : ℚ) (env : Nat → Node × Node) :
    generate_walk_in_circle edges sp start_node target_km tolerance env 0 =
      none ∧
    attemptsPerformed edges sp start_node target_km tolerance env 0 = 0 ∧
    ∀ n, 1 ≤ attemptsPerformed edges sp start_node target_km tolerance env
      (n + 1) := by
  refine ⟨rfl, rfl, ?_⟩
  intro n
  show 1 ≤ (genAux edges sp start_node (target_km * (1 - tolerance) * 1000)
    (target_km * (1 + tolerance) * 1000) env 0 (n + 1)).2
  cases h : attemptBody edges sp start_node
      (target_km * (1 - tolerance) * 1000)
      (target_km * (1 + tolerance) * 1000) (env 0).1 (env 0).2 with
  | some p =>
    rw [genAux_hit edges sp start_node _ _ env h]
  | none =>
    rw [genAux_skip edges sp start_node _ _ env h]
    omega

/-- Claim C4: whenever the nearest node of sampled point B or C equals the
start node, or the two nearest nodes coincide, that attempt issues no
shortest-path oracle query at all, its body yields no loop, and the search
continues with the next attempt. -/
theorem degenerate_sample_skips_attempt_without_oracle_calls
    {Node : Type} [DecidableEq Node]
    (edges : Node → Node → Option ℚ) (sp : Node → Node → Option (List Node))
    (start_node : Node) (m M : ℚ) (env : Nat → Node × Node) (i fuel : Nat)
    (hdeg : (env i).1 = start_node ∨ (env i).2 = start_node ∨
      (env i).1 = (env i).2) :
    attemptTrace sp start_node (env i).1 (env i).2 = [] ∧
    attemptBody edges sp start_node m M (env i).1 (env i).2 = none ∧
    (genAux edges sp start_node m M env i (fuel + 1)).1 =
      (genAux edges sp start_node m M env (i + 1) fuel).1 := by
  have hb : attemptBody edges sp start_node m M (env i).1 (env i).2 = none := by
    simp [attemptBody, hdeg]
  refine ⟨by simp [attemptTrace, hdeg], hb, ?_⟩
  rw [genAux_skip edges sp start_node m M env hb]

theorem degenerate_sample_skips_attempt_without_oracle_calls_witness :
    attemptTrace exSp 0 (exEnvDegen 0).1 (exEnvDegen 0).2 = [] ∧
    attemptBody exEdges exSp 0 0 0 (exEnvDegen 0).1 (exEnvDegen 0).2 = none ∧
    (genAux exEdges exSp 0 0 0 exEnvDegen 0 (0 + 1)).1 =
      (genAux exEdges exSp 0 0 0 exEnvDegen (0 + 1) 0).1 :=
  degenerate_sample_skips_attempt_without_oracle_calls exEdges exSp 0 0 0
    exEnvDegen 0 0 (Or.inl rfl)

/-- Claim C5: if a shortest-path query of an attempt raises the no-path
error, the attempt's body yields no loop (the `except` clause of line 125
catches the error, so it never leaves `generate_walk_in_circle`, whose
result type stays `Option`) and the search proceeds with the next attempt. -/
theorem no_path_error_abandons_only_that_attempt
    {Node : Type} [DecidableEq Node]
    (edges : Node → Node → Option ℚ) (sp : Node → Node → Option (List Node))
    (start_node : Node) (m M : ℚ) (env : Nat → Node × Node) (i fuel : Nat)
    (herr : tryBlock edges sp start_node m M (env i).1 (env i).2 =
      .error .noPath) :
    attemptBody edges sp start_node m M (env i).1 (env i).2 = none ∧
    (genAux edges sp start_node m M env i (fuel + 1)).1 =
      (genAux edges sp start_node m M env (i + 1) fuel).1 := by
  have hb := attemptBody_eq_none_of_error edges sp start_node m M herr
  refine ⟨hb, ?_⟩
  rw [genAux_skip edges sp start_node m M env hb]

theorem no_path_error_abandons_only_that_attempt_witness :
    attemptBody exEdges exSpShort 0 0 0 (exEnvBC 0).1 (exEnvBC 0).2 = none ∧
    (genAux exEdges exSpShort 0 0 0 exEnvBC 0 (0 + 1)).1 =
      (genAux exEdges exSpShort 0 0 0 exEnvBC (0 + 1) 0).1 :=
  no_path_error_abandons_only_that_attempt exEdges exSpShort 0 0 0 exEnvBC 0 0
    (by norm_num [tryBlock, exSpShort, exEnvBC])

/-- Claim C10: every consecutive node pair of a returned path has an edge
with key 0 carrying a `length` attribute (the recomputation of line 120
indexes `graph.edges[u, v, 0]['length']`); and when that lookup raises
`KeyError` in some attempt, the `except` clause of line 125 catches it and
that attempt is discarded exactly like a no-path attempt, never surfacing
to the caller. -/
theorem returned_path_edges_exist_and_keyerror_skips_attempt
    {Node : Type} [DecidableEq Node] :
    (∀ (edges : Node → Node → Option ℚ) (sp : Node → Node → Option (List Node))
        (start_node : Node) (target_km tolerance : ℚ) (env : Nat → Node × Node)
        (max_attempts : Nat) (p : List Node),
      generate_walk_in_circle edges sp start_node target_km tolerance env
        max_attempts = some p →
      ∀ x ∈ p.zip p.tail, edges x.1 x.2 ≠ none) ∧
    (∀ (edges : Node → Node → Option ℚ) (sp : Node → Node → Option (List Node))
        (start_node : Node) (m M : ℚ) (env : Nat → Node × Node) (i fuel : Nat),
      tryBlock edges sp start_node m M (env i).1 (env i).2 = .error .keyError →
      attemptBody edges sp start_node m M (env i).1 (env i).2 = none ∧
      (genAux edges sp start_node m M env i (fuel + 1)).1 =
        (genAux edges sp start_node m M env (i + 1) fuel).1) := by
  constructor
  · intro edges sp start_node target_km tolerance env max_attempts p h x hx
    unfold generate_walk_in_circle at h
    obtain ⟨j, hj, hhit⟩ :=
      genAux_some_exists edges sp start_node _ _ env max_attempts 0 p h
    obtain ⟨hdeg, pab, pbc, pca, L, hab, hbc, hca, hp, hlen, h1, h2⟩ :=
      attemptBody_eq_some edges sp start_node _ _ hhit
    subst hp
    exact pathLength_edges_exist edges _ L hlen x hx
  · intro edges sp start_node m M env i fuel herr
    have hb := attemptBody_eq_none_of_error edges sp start_node m M herr
    refine ⟨hb, ?_⟩
    rw [genAux_skip edges sp start_node m M env hb]

theorem returned_path_edges_exist_and_keyerror_skips_attempt_witness :
    (∀ x ∈ ([0, 1, 2, 0] : List Nat).zip ([0, 1, 2, 0] : List Nat).tail,
      exEdges x.1 x.2 ≠ none) ∧
    attemptBody exEdgesGap exSp 0 0 0 (exEnvBC 0).1 (exEnvBC 0).2 = none ∧
    (genAux exEdgesGap exSp 0 0 0 exEnvBC 0 (0 + 1)).1 =
      (genAux exEdgesGap exSp 0 0 0 exEnvBC (0 + 1) 0).1 :=
  ⟨returned_path_edges_exist_and_keyerror_skips_attempt.1 exEdges exSp 0 (3 / 2)
      (1 / 10) exEnvBC 1 [0, 1, 2, 0]
      (by norm_num [generate_walk_in_circle, genAux, attemptBody, tryBlock,
        pathLength, exSp, exEdges, exEnvBC]),
    returned_path_edges_exist_and_keyerror_skips_attempt.2 exEdgesGap exSp 0 0 0
      exEnvBC 0 0
      (by norm_num [tryBlock, pathLength, exSp, exEdgesGap, exEnvBC])⟩

/-! ### Helper lemmas about the waypoint reducer -/

theorem everyNthAux_eq {α : Type} (step : Nat) :
    ∀ (l : List α) (c : Nat), everyNthAux l step c = everyNth (List.drop c l) step := by
  intro l
  induction l with
  | nil => intro c; simp [everyNthAux, everyNth]
  | cons a rest ih =>
    intro c
    cases c with
    | zero => simp [everyNth]
    | succ c' =>
      rw [List.drop_succ_cons]
      exact ih c'

theorem everyNth_cons {α : Type} (a : α) (rest : List α) (step : Nat) :
    everyNth (a :: rest) step = a :: everyNth (List.drop (step - 1) rest) step := by
  rw [everyNth]
  show a :: everyNthAux rest step (step - 1) = _
  rw [everyNthAux_eq]

theorem everyNth_one {α : Type} : ∀ l : List α, everyNth l 1 = l := by
  intro l
  induction l with
  | nil => rfl
  | cons a rest ih => rw [everyNth_cons]; simp [ih]

theorem everyNth_ne_nil {α : Type} {l : List α} (h : l ≠ []) (step : Nat) :
    everyNth l step ≠ [] := by
  cases l with
  | nil => exact absurd rfl h
  | cons a rest => rw [everyNth_cons]; simp

theorem length_everyNth {α : Type} (step : Nat) (hstep : 1 ≤ step) :
    ∀ (n : Nat) (l : List α), l.length = n → l ≠ [] →
      (everyNth l step).length = (l.length - 1) / step + 1 := by
  intro n
  induction n using Nat.strong_induction_on with
  | _ n ih =>
    intro l hn hne
    cases l with
    | nil => exact absurd rfl hne
    | cons a rest =>
      rw [everyNth_cons]
      by_cases hr : rest.length ≤ step - 1
      · rw [List.drop_eq_nil_of_le hr]
        show ([a] : List α).length = _
        have h0 : ((a :: rest).length - 1) / step = 0 :=
          Nat.div_eq_of_lt (by simp; omega)
        rw [h0]
        rfl
      · push_neg at hr
        have hdne : List.drop (step - 1) rest ≠ [] := by
          intro hd
          have := congrArg List.length hd
          rw [List.length_drop] at this
          simp at this
          omega
        have hdl : (List.drop (step - 1) rest).length = rest.length - (step - 1) :=
          List.length_drop _ _
        have ihx := ih (List.drop (step - 1) rest).length
          (by rw [hdl, ← hn]; simp; omega)
          (List.drop (step - 1) rest) rfl hdne
        rw [List.length_cons, ihx, hdl]
        have h2 : rest.length - (step - 1) - 1 = rest.length - step := by omega
        have h3 : (a :: rest).length - 1 = rest.length := by simp
        rw [h2, h3]
        have h4 : rest.length = rest.length - step + step := by omega
        have h5 : rest.length / step = (rest.length - step) / step + 1 := by
          conv_lhs => rw [h4]
          exact Nat.add_div_right _ (by omega)
        omega

theorem getLast?_drop_of_lt {α : Type} :
    ∀ (l : List α) (n : Nat), n < l.length → (List.drop n l).getLast? = l.getLast? := by
  intro l
  induction l with
  | nil => intro n h; simp at h
  | cons a rest ih =>
    intro n h
    cases n with
    | zero => rfl
    | succ m =>
      rw [List.drop_succ_cons]
      have hm : m < rest.length := by simp at h; omega
      rw [ih m hm]
      cases rest with
      | nil => simp at hm
      | cons b rest' => rw [List.getLast?_cons_cons]

theorem getLast?_everyNth_dvd {α : Type} (step : Nat) (hstep : 1 ≤ step) :
    ∀ (n : Nat) (l : List α), l.length = n → l ≠ [] → step ∣ (l.length - 1) →
      (everyNth l step).getLast? = l.getLast? := by
  intro n
  induction n using Nat.strong_induction_on with
  | _ n ih =>
    intro l hn hne hdvd
    cases l with
    | nil => exact absurd rfl hne
    | cons a rest =>
      have hd1 : (a :: rest).length - 1 = rest.length := by simp
      rw [hd1] at hdvd
      by_cases hr : rest.length ≤ step - 1
      · have hz : rest.length = 0 := Nat.eq_zero_of_dvd_of_lt hdvd (by omega)
        have hrest : rest = [] := List.eq_nil_of_length_eq_zero hz
        subst hrest
        rw [everyNth_cons]
        simp [everyNth, everyNthAux]
      · push_neg at hr
        rw [everyNth_cons]
        have hdne : List.drop (step - 1) rest ≠ [] := by
          intro hd
          have := congrArg List.length hd
          rw [List.length_drop] at this
          simp at this
          omega
        have hdl : (List.drop (step - 1) rest).length = rest.length - (step - 1) :=
          List.length_drop _ _
        have hdvd' : step ∣ ((List.drop (step - 1) rest).length - 1) := by
          rw [hdl]
          have he : rest.length - (step - 1) - 1 = rest.length - step := by omega
          rw [he]
          exact Nat.dvd_sub' hdvd (dvd_refl step)
        have ihx := ih (List.drop (step - 1) rest).length
          (by rw [hdl, ← hn]; simp; omega) (List.drop (step - 1) rest) rfl hdne hdvd'
        obtain ⟨y, ys, hys⟩ :
            ∃ y ys, everyNth (List.drop (step - 1) rest) step = y :: ys := by
          cases h : everyNth (List.drop (step - 1) rest) step with
          | nil => exact absurd h (everyNth_ne_nil hdne step)
          | cons y ys => exact ⟨y, ys, rfl⟩
        rw [hys, List.getLast?_cons_cons, ← hys, ihx,
          getLast?_drop_of_lt rest (step - 1) hr]
        cases rest with
        | nil => simp at hr
        | cons b rest' => rw [List.getLast?_cons_cons]

theorem reduce_waypoints_of_le {α : Type} [DecidableEq α] {k : Nat} {l : List α}
    (h : l.length ≤ k) : reduce_waypoints k l = l := by
  unfold reduce_waypoints
  rw [if_neg (by omega)]

theorem reduce_waypoints_of_step_one {α : Type} [DecidableEq α] {k : Nat}
    {l : List α} (h : k < l.length) (hstep : l.length / (k - 1) = 1) :
    reduce_waypoints k l = l := by
  unfold reduce_waypoints
  rw [if_pos h]
  dsimp only
  rw [hstep, everyNth_one, if_pos rfl]

/-- Bound on the reduced length when the slice keeps every element taken plus
at most one forced append: `(n-1)/q + 1 ≤ max k (2k-3)` where `q = n/(k-1)`. -/
theorem reduce_arith_noappend (k n q s : Nat) (hk : 2 ≤ k) (h : k < n)
    (hqdef : q = n / (k - 1)) (hq : 2 ≤ q) (hs : s = (n - 1) / q) :
    s + 1 ≤ max k (2 * k - 3) := by
  have hpos : 0 < k - 1 := by omega
  have hr0 := Nat.div_add_mod n (k - 1)
  rw [← hqdef] at hr0
  have hrlt : n % (k - 1) < k - 1 := Nat.mod_lt _ hpos
  have hr' : q * (k - 1) + n % (k - 1) = n := by
    rw [Nat.mul_comm]; exact hr0
  have hub : n - 1 ≤ q * (k - 1) + (k - 3) := by omega
  have hs1 : s ≤ (q * (k - 1) + (k - 3)) / q := by
    rw [hs]; exact Nat.div_le_div_right hub
  have hs2 : (q * (k - 1) + (k - 3)) / q = (k - 1) + (k - 3) / q :=
    Nat.mul_add_div (by omega) _ _
  have hs3 : (k - 3) / q ≤ k - 3 := Nat.div_le_self _ _
  omega

/-- Bound when the forced append may add one more element but the slice stride
does not divide `n - 1`: `(n-1)/q + 2 ≤ max k (2k-3)`. -/
theorem reduce_arith_append (k n q s : Nat) (hk : 2 ≤ k) (h : k < n)
    (hqdef : q = n / (k - 1)) (hq : 2 ≤ q) (hs : s = (n - 1) / q)
    (hndvd : ¬ q ∣ (n - 1)) : s + 2 ≤ max k (2 * k - 3) := by
  have hpos : 0 < k - 1 := by omega
  have hr0 := Nat.div_add_mod n (k - 1)
  rw [← hqdef] at hr0
  have hrlt : n % (k - 1) < k - 1 := Nat.mod_lt _ hpos
  have hr' : q * (k - 1) + n % (k - 1) = n := by
    rw [Nat.mul_comm]; exact hr0
  have hcase : k = 2 ∨ k = 3 ∨ 4 ≤ k := by omega
  rcases hcase with rfl | rfl | hk4
  · have hqn : q = n := by simpa using hqdef
    have hs0 : s = 0 := by
      rw [hs, hqn]; exact Nat.div_eq_of_lt (by omega)
    omega
  · norm_num at hr' hrlt
    have hrc : n % 2 = 0 ∨ n % 2 = 1 := by omega
    rcases hrc with hr0' | hr1'
    · have hs1 : s = 1 := by
        rw [hs]
        exact Nat.div_eq_of_lt_le (by omega) (by omega)
      omega
    · exact absurd ⟨2, by omega⟩ hndvd
  · have hub : n - 1 ≤ q * (k - 1) + (k - 3) := by omega
    have hs1 : s ≤ (q * (k - 1) + (k - 3)) / q := by
      rw [hs]; exact Nat.div_le_div_right hub
    have hs2 : (q * (k - 1) + (k - 3)) / q = (k - 1) + (k - 3) / q :=
      Nat.mul_add_div (by omega) _ _
    have hs3 : (k - 3) / q ≤ (k - 3) / 2 := Nat.div_le_div_left hq (by omega)
    omega

theorem reduce_length_bound {α : Type} [DecidableEq α] {k : Nat} {l : List α}
    (hk : 2 ≤ k) (h : k < l.length) (hq : 2 ≤ l.length / (k - 1)) :
    (reduce_waypoints k l).length ≤ max k (2 * k - 3) := by
  have hne : l ≠ [] := by
    intro he
    rw [he] at h
    simp at h
  have hurl := length_everyNth (l.length / (k - 1)) (by omega) l.length l rfl hne
  unfold reduce_waypoints
  rw [if_pos h]
  dsimp only
  by_cases hdvd : (l.length / (k - 1)) ∣ (l.length - 1)
  · rw [if_pos (getLast?_everyNth_dvd _ (by omega) l.length l rfl hne hdvd), hurl]
    exact reduce_arith_noappend k l.length _ _ hk h rfl hq rfl
  · have harith := reduce_arith_append k l.length (l.length / (k - 1))
      ((l.length - 1) / (l.length / (k - 1))) hk h rfl hq rfl hdvd
    split_ifs
    · rw [hurl]; omega
    · rw [List.length_append, hurl]
      have htl : l.getLast?.toList.length ≤ 1 := by
        cases l.getLast? <;> simp
      omega

/-! ### Claim theorems: the waypoint reducer -/

/-- Claim C8, shown failing on the code: for the 25-node path
`[0, 1, ..., 24]` and `max_count = max_waypoints_for_url = 23`, the reduction
branch for `len(path) > max_count` computes `step = 25 // 22 = 1` and returns
the path unchanged, with 25 waypoints — more than `max_count + 1 = 24`.  (The
same happens for every length from 25 to 43, peaking at 43 waypoints.)  The
guaranteed bound of the spec, and the evident purpose of the constant
`max_waypoints_for_url`, are violated. -/
theorem reduce_waypoints_length_bound_fails :
    reduce_waypoints max_waypoints_for_url (List.range 25) = List.range 25 ∧
    (reduce_waypoints max_waypoints_for_url (List.range 25)).length = 25 ∧
    ¬((reduce_waypoints max_waypoints_for_url (List.range 25)).length ≤
      max_waypoints_for_url + 1) := by
  refine ⟨?_, by decide, by decide⟩
  decide

/-- Claim C9: the waypoint reduction is idempotent — applying it twice with
the same `max_count` equals applying it once — and it is the identity
whenever the path already has at most `max_count` nodes.  (`max_count ≥ 2`
is the function's domain: the Python code divides by `max_count - 1`, so
`max_count ≤ 1` would raise `ZeroDivisionError` or use a non-positive slice
step.) -/
theorem reduce_waypoints_idempotent {α : Type} [DecidableEq α]
    (max_count : Nat) (path : List α) (hk : 2 ≤ max_count) :
    reduce_waypoints max_count (reduce_waypoints max_count path) =
      reduce_waypoints max_count path ∧
    (path.length ≤ max_count → reduce_waypoints max_count path = path) := by
  refine ⟨?_, fun hle => reduce_waypoints_of_le hle⟩
  by_cases h1 : path.length ≤ max_count
  · rw [reduce_waypoints_of_le h1, reduce_waypoints_of_le h1]
  · push_neg at h1
    have hq1 : 1 ≤ path.length / (max_count - 1) := by
      rw [Nat.one_le_div_iff (by omega)]
      omega
    rcases eq_or_lt_of_le hq1 with heq | hlt
    · rw [reduce_waypoints_of_step_one h1 heq.symm,
        reduce_waypoints_of_step_one h1 heq.symm]
    · have hb := reduce_length_bound hk h1 hlt
      by_cases h2 : (reduce_waypoints max_count path).length ≤ max_count
      · exact reduce_waypoints_of_le h2
      · push_neg at h2
        exact reduce_waypoints_of_step_one h2
          (Nat.div_eq_of_lt_le (by omega) (by omega))

theorem reduce_waypoints_idempotent_witness :
    reduce_waypoints 23 (reduce_waypoints 23 (List.range 50)) =
      reduce_waypoints 23 (List.range 50) ∧
    ((List.range 50).length ≤ 23 → reduce_waypoints 23 (List.range 50) =
      List.range 50) :=
  reduce_waypoints_idempotent 23 (List.range 50) (by norm_num)

/-! ### Helper lemmas about the geo sampler -/

theorem deg_arcsin_bounds (z : ℝ) :
    -90 ≤ degrees (Real.arcsin z) ∧ degrees (Real.arcsin z) ≤ 90 := by
  have hπ0 := Real.pi_pos
  have h1 : -(Real.pi / 2) ≤ Real.arcsin z := Real.neg_pi_div_two_le_arcsin z
  have h2 : Real.arcsin z ≤ Real.pi / 2 := Real.arcsin_le_pi_div_two z
  have h3 : (0:ℝ) ≤ 180 / Real.pi := by positivity
  have h4 : -(Real.pi / 2) * (180 / Real.pi) = -90 := by field_simp; try ring
  have h5 : (Real.pi / 2) * (180 / Real.pi) = 90 := by field_simp; try ring
  unfold degrees
  constructor
  · rw [← h4]; exact mul_le_mul_of_nonneg_right h1 h3
  · rw [← h5]; exact mul_le_mul_of_nonneg_right h2 h3

theorem deg_lon_bounds (lon : ℝ) (w : ℂ) :
    lon - 180 < degrees (radians lon + w.arg) ∧
    degrees (radians lon + w.arg) ≤ lon + 180 := by
  have hπ0 := Real.pi_pos
  have hne : Real.pi ≠ 0 := ne_of_gt hπ0
  have h3 : (0:ℝ) < 180 / Real.pi := by positivity
  have key : (lon * (Real.pi / 180) + w.arg) * (180 / Real.pi) =
      lon + w.arg * (180 / Real.pi) := by field_simp; try ring
  have hub : w.arg * (180 / Real.pi) ≤ 180 := by
    have := mul_le_mul_of_nonneg_right (Complex.arg_le_pi w) (le_of_lt h3)
    have hp : Real.pi * (180 / Real.pi) = 180 := by field_simp; try ring
    linarith
  have hlb : -180 < w.arg * (180 / Real.pi) := by
    have := mul_lt_mul_of_pos_right (Complex.neg_pi_lt_arg w) h3
    have hp : -Real.pi * (180 / Real.pi) = -180 := by field_simp; try ring
    linarith
  unfold degrees radians
  constructor
  · rw [key]; linarith
  · rw [key]; linarith

/-! ### Claim theorems: the geo sampler -/

/-- Claim C6: `get_random_point_in_circle` equals the spec's reference
definition of `sample_point_in_disk` (distance `r = radius_km·sqrt(U1)`,
bearing `θ = 2π·U2`, spherical offset with `R = 6371` km, back to degrees),
and with `radius_km = 0` it returns the center, for every valid center
latitude. -/
theorem sampler_matches_spec_formula_and_zero_radius_returns_center
    (lat lon radius_km u1 u2 : ℝ) (hlat1 : -90 ≤ lat) (hlat2 : lat ≤ 90) :
    get_random_point_in_circle lat lon radius_km u1 u2 =
      sample_point_in_disk_spec lat lon radius_km u1 u2 ∧
    get_random_point_in_circle lat lon 0 u1 u2 = (lat, lon) := by
  have hπ0 := Real.pi_pos
  have hne : Real.pi ≠ 0 := ne_of_gt hπ0
  refine ⟨rfl, ?_⟩
  unfold get_random_point_in_circle radians degrees atan2
  dsimp only
  norm_num [Real.cos_zero, Real.sin_zero]
  have hpos : (0:ℝ) ≤ Real.pi / 180 := by positivity
  have hlr1 : -(Real.pi / 2) ≤ lat * (Real.pi / 180) := by
    have := mul_le_mul_of_nonneg_right hlat1 hpos
    have he : (-90:ℝ) * (Real.pi / 180) = -(Real.pi / 2) := by ring
    linarith [he ▸ this]
  have hlr2 : lat * (Real.pi / 180) ≤ Real.pi / 2 := by
    have := mul_le_mul_of_nonneg_right hlat2 hpos
    have he : (90:ℝ) * (Real.pi / 180) = Real.pi / 2 := by ring
    linarith [he ▸ this]
  have harc : Real.arcsin (Real.sin (lat * (Real.pi / 180))) =
      lat * (Real.pi / 180) := Real.arcsin_sin hlr1 hlr2
  rw [harc]
  have hx : (0:ℝ) ≤
      1 - Real.sin (lat * (Real.pi / 180)) * Real.sin (lat * (Real.pi / 180)) := by
    have h1 := Real.sin_sq_add_cos_sq (lat * (Real.pi / 180))
    have h2 := sq_nonneg (Real.cos (lat * (Real.pi / 180)))
    nlinarith [h1, h2]
  have hcast : (1 : ℂ) - Complex.sin (↑lat * (↑Real.pi / 180)) *
      Complex.sin ↑(lat * (Real.pi / 180)) =
      ↑(1 - Real.sin (lat * (Real.pi / 180)) * Real.sin (lat * (Real.pi / 180))) := by
    push_cast
    ring
  rw [hcast, Complex.arg_ofReal_of_nonneg hx]
  constructor
  · field_simp
  · field_simp

theorem sampler_matches_spec_formula_and_zero_radius_returns_center_witness :
    get_random_point_in_circle 45 10 7 (1 / 2) (1 / 3) =
      sample_point_in_disk_spec 45 10 7 (1 / 2) (1 / 3) ∧
    get_random_point_in_circle 45 10 0 (1 / 2) (1 / 3) = (45, 10) :=
  sampler_matches_spec_formula_and_zero_radius_returns_center 45 10 7 (1 / 2)
    (1 / 3) (by norm_num) (by norm_num)

/-- Claim C7, shown false at a concrete input: the sampler never wraps the
longitude.  For the valid center `(lat, lon) = (0, 180)`, radius
`6371` km ≥ 0 and draws `u1 = 1`, `u2 = 1/4` (bearing `π/2`), the returned
longitude is `180 + 180/π > 180`, outside `[-180, 180]`. -/
theorem sampler_longitude_not_wrapped_counterexample :
    180 < (get_random_point_in_circle 0 180 6371 1 (1 / 4)).2 := by
  have hπ := Real.pi_gt_three
  have hπ0 := Real.pi_pos
  have hne : Real.pi ≠ 0 := ne_of_gt hπ0
  unfold get_random_point_in_circle radians degrees atan2
  dsimp only
  rw [Real.sqrt_one]
  have ht : (2:ℝ) * Real.pi * (1 / 4) = Real.pi / 2 := by ring
  rw [ht]
  norm_num [Real.sin_zero, Real.cos_zero, Real.sin_pi_div_two,
    Real.cos_pi_div_two, Real.arcsin_zero]
  have harg : (Complex.cos 1 + Complex.sin 1 * Complex.I).arg = 1 := by
    have h := @Complex.arg_cos_add_sin_mul_I 1 ⟨by linarith, by linarith⟩
    simpa using h
  rw [harg]
  have hval : (180 * (Real.pi / 180) + 1) * (180 / Real.pi) =
      180 + 180 / Real.pi := by
    field_simp
    ring
  rw [hval]
  have : 0 < 180 / Real.pi := by positivity
  linarith

/-- Claim C7, amended: for every center and radius and any draws, the
returned latitude always lies in `[-90, 90]` (the arcsine lands in
`[-π/2, π/2]`), but the returned longitude is only guaranteed to lie in
`(lon - 180, lon + 180]` — the atan2 offset is added to the center longitude
with no wrapping, so for centers near the ±180 meridian it can leave
`[-180, 180]`. -/
theorem sampler_latitude_bounded_longitude_offset_bounded
    (lat lon radius_km u1 u2 : ℝ) :
    -90 ≤ (get_random_point_in_circle lat lon radius_km u1 u2).1 ∧
    (get_random_point_in_circle lat lon radius_km u1 u2).1 ≤ 90 ∧
    lon - 180 < (get_random_point_in_circle lat lon radius_km u1 u2).2 ∧
    (get_random_point_in_circle lat lon radius_km u1 u2).2 ≤ lon + 180 :=
  ⟨(deg_arcsin_bounds _).1, (deg_arcsin_bounds _).2,
    (deg_lon_bounds lon _).1, (deg_lon_bounds lon _).2⟩

end RandomWalker
